import Mathlib

/-!
# dirtyroute: controller/action pattern routing

A shallow embedding of `dirtyroute.go` and theorems about it.

Modelling conventions.

* Go strings are Lean `String`s (valid UTF-8 text). Byte-level equality and
  substring search agree with the character-level ones on such strings.
* A Go `error` is `Option String`: `none` is `nil`, `some msg` is an error whose
  `Error()` text is `msg`.
* Controllers and actions are registered by pointer in the source; here they are
  values (registered pointers are non-nil). `Router.Options` keeps its nil case.
* The case table of the Unicode library, which `strings.ToLower` consults for
  characters outside ASCII, is not part of the source: the functions that lower
  text take it as the parameter `caseTable`, and the theorems hold for every
  such table.
* Handlers are external functions. An action handler is identified by a label;
  `Route` returns the ordered list of calls it makes to handlers, together with a
  flag telling whether it ended in a run-time panic.
-/

namespace dirtyroute

/-! ## Library functions used by the source -/

/-- Go `error` values: `none` is `nil`. -/
abbrev error := Option String

/-- The Go function `errors.New`. -/
def errors.New (msg : String) : error := some msg

/-- Size of the Go type `int` in bits (64-bit targets). -/
def intSize : Nat := 64

/-- Digits of a decimal numeral, most significant first, accumulated onto `acc`;
`none` when a character is not one of `0`..`9`. -/
def parseDigits : List Char → Nat → Option Nat
  | [], acc => some acc
  | c :: cs, acc =>
    if '0' ≤ c ∧ c ≤ '9' then parseDigits cs (acc * 10 + (c.toNat - '0'.toNat)) else none

/-- The Go function `strconv.Atoi`: an optional sign `+` or `-`, then one or more
decimal digits, with a value that fits the type `int`. `none` stands for a
non-nil error (syntax or range). -/
def Atoi (s : String) : Option Int :=
  let cs := s.toList
  let neg := cs.head? = some '-'
  let ds := if cs.head? = some '-' ∨ cs.head? = some '+' then cs.tail else cs
  if ds = [] then none
  else
    match parseDigits ds 0 with
    | none => none
    | some n =>
      if neg then (if n ≤ 2 ^ (intSize - 1) then some (-(n : Int)) else none)
      else (if n < 2 ^ (intSize - 1) then some (n : Int) else none)

/-- The Go function `strings.Contains`: `substr` occurs inside `s`. -/
def Contains (s substr : String) : Bool :=
  decide (substr.toList <:+: s.toList)

/-- The Go function `strings.Split` for a one-character separator: all the
pieces of `s` between occurrences of `sep` (always at least one piece). -/
def Split (s : String) (sep : Char) : List String :=
  (s.toList.splitOn sep).map String.mk

/-- The Go function `unicode.ToLower`: the letters `A`..`Z` are lowered, the
other ASCII characters are kept, and a character above `unicode.MaxASCII` is
mapped by the case table of the Unicode library. That table is not part of the
source: `caseTable` stands for it. -/
def toLowerRune (caseTable : Char → Char) (c : Char) : Char :=
  if c.toNat < 128 then (if 'A' ≤ c ∧ c ≤ 'Z' then Char.ofNat (c.toNat + 32) else c)
  else caseTable c

/-- The Go function `strings.ToLower`: every character is mapped by
`unicode.ToLower`. -/
def ToLower (caseTable : Char → Char) (s : String) : String :=
  String.mk (s.toList.map (toLowerRune caseTable))

/-- The Go conversion `string(i)` of an integer: the text made of the single
code point `i`, or of U+FFFD when `i` is not a valid code point. -/
def string (i : Int) : String :=
  if 0 ≤ i ∧ Nat.isValidChar i.toNat then String.singleton (Char.ofNat i.toNat)
  else String.singleton (Char.ofNat 0xFFFD)

/-- The constant `http.StatusUnprocessableEntity`. -/
def StatusUnprocessableEntity : Int := 422

/-- The constant `http.StatusNotFound`. -/
def StatusNotFound : Int := 404

/-! ## Data model -/

/-- The configuration of a router. -/
structure Options where
  ContentTypes : List String
  deriving DecidableEq, Repr

/-- Label standing for a handler function of type `ActionHandler`. -/
abbrev ActionHandler := Nat

/-- A controller action. -/
structure Action where
  Name : String
  Pattern : List String
  Method : String
  Private : Bool
  Handler : ActionHandler
  deriving DecidableEq, Repr

/-- A named list of actions. -/
structure Controller where
  Name : String
  Actions : List Action
  deriving DecidableEq, Repr

/-- The token returned by the auth layer. -/
structure AuthToken where
  HandleError : Bool
  StatusCode : Int
  deriving DecidableEq, Repr

/-- What `Route` reads of a `*http.Request`: the method, `r.URL.Path`, and
`r.Header.Get("Content-type")` (empty when the header is absent). -/
structure Request where
  Method : String
  Path : String
  ContentType : String
  deriving DecidableEq, Repr

/-- The type of the auth layer. -/
abbrev AuthHandler := Action → Request → AuthToken × error

/-- The router. `ErrorHandler` maps the argument list to the body it writes
(`none` when it panics). -/
structure Router where
  Controllers : List Controller
  Options : Option Options
  ErrorHandler : List String → Option String
  AuthHandler : AuthHandler

/-- The action params. -/
structure Params where
  Controller : String
  Pattern : List String
  deriving DecidableEq, Repr

/-! ## Matching -/

/-- The loop of `Action.Matches` over the positions of the action pattern,
`ss` being the request segments from the same position on and `matches` the
counter. -/
def Action.Matches.loop : List String → List String → Nat → Nat
  | p :: ps, s :: ss, «matches» =>
    let isint := (Atoi s).isSome
    if p = s then Action.Matches.loop ps ss («matches» + 1)
    else if Contains p "{i||s}" then Action.Matches.loop ps ss («matches» + 1)
    else if Contains p "{i}" && isint then Action.Matches.loop ps ss («matches» + 1)
    else if Contains p "{s}" && !isint then Action.Matches.loop ps ss («matches» + 1)
    else Action.Matches.loop ps ss «matches»
  | _, _, «matches» => «matches»

/-- Check the action pattern matches path params and method. -/
def Action.Matches (a : Action) (pattern : List String) (method : String) : error :=
  let «matches» :=
    if a.Pattern.length = pattern.length ∧ a.Method = method then
      Action.Matches.loop a.Pattern pattern 0
    else 0
  if «matches» ≠ a.Pattern.length then errors.New "Pattern did not match" else none

/-! ## Path parsing and controller lookup -/

/-- One iteration of the loop of `GetParams`, on component `p` at index `i`. -/
def Router.GetParams.step (params : Params) (ip : Nat × String) : Params :=
  if ip.1 = 0 then params
  else
    let p := if ip.2 = "" then "{/}" else ip.2
    if ip.1 = 1 then { params with Controller := p }
    else { params with Pattern := params.Pattern ++ [p] }

/-- Build Router Params. -/
def Router.GetParams (pstr : String) : Params :=
  let path := Split pstr '/'
  let params := path.enum.foldl Router.GetParams.step { Controller := "", Pattern := [] }
  if params.Pattern.length = 0 then { params with Pattern := params.Pattern ++ ["{/}"] }
  else params

/-- The loop of `GetController` over the registered controllers. -/
def Router.GetController.loop (name : String) : List Controller → Option Controller × error
  | [] => (none, errors.New "Controller not found")
  | c :: cs => if c.Name = name then (some c, none) else Router.GetController.loop name cs

/-- Get Controller. -/
def Router.GetController (router : Router) (name : String) : Option Controller × error :=
  Router.GetController.loop name router.Controllers

/-! ## Registration and defaults -/

/-- Router Error Handler: the body printed by `fmt.Fprint`; `none` when
`args[1]` is out of range. -/
def defaultErrorHandler (args : List String) : Option String :=
  match args[1]? with
  | none => none
  | some a1 => some ("Error: STATUS " ++ a1 ++ " : ERROR " ++ a1)

/-- Router Auth: the default auth layer. -/
def defaultAuthHandler (_a : Action) (_r : Request) : AuthToken × error :=
  ({ HandleError := true, StatusCode := 0 }, none)

/-- A fresh router with the default handlers. -/
def NewRouter (options : Option Options) : Router :=
  { Controllers := [], Options := options,
    ErrorHandler := defaultErrorHandler, AuthHandler := defaultAuthHandler }

/-- Register a new controller. -/
def Router.RegisterController (router : Router) (c : Controller) : Router :=
  { router with Controllers := router.Controllers ++ [c] }

/-- Load the controller action into the controller actions slice. -/
def Controller.RegisterAction (c : Controller) (a : Action) : Controller :=
  { c with Actions := c.Actions ++ [a] }

/-! ## Dispatch -/

/-- A call made by `Route` to one of the pluggable functions. -/
inductive Call where
  /-- The call `router.AuthHandler(a, r)`. -/
  | auth (a : Action)
  /-- The call `a.Handler(w, r, args)`. -/
  | handler (a : Action) (args : List String)
  /-- The call `router.ErrorHandler(w, r, args)`. -/
  | errorHandler (args : List String)
  deriving DecidableEq, Repr

/-- How a run of `Route` ends: the calls made, in order, and whether the run was
cut short by a run-time panic. -/
structure Outcome where
  calls : List Call
  panicked : Bool
  deriving DecidableEq, Repr

/-- Prefix an outcome with one more call. -/
def Outcome.after (c : Call) (o : Outcome) : Outcome :=
  { o with calls := c :: o.calls }

/-- The call `router.ErrorHandler(w, r, []string{status, err.Error()})`:
evaluating `err.Error()` on a nil `err` panics before the handler is entered. -/
def callErrorHandler (status : String) (err : error) : Outcome :=
  match err with
  | none => { calls := [], panicked := true }
  | some msg => { calls := [Call.errorHandler [status, msg]], panicked := false }

/-- The scan of `Route` over the controller actions, followed by the final
call of the error handler. `err` is the variable `err` of `Route`, which the
scan never assigns (the `err` of the auth call is a new variable). -/
def Router.Route.scan (auth : dirtyroute.AuthHandler) (r : Request) (pattern : List String)
    (err : error) : List Action → Outcome
  | [] => callErrorHandler (string StatusNotFound) err
  | a :: rest =>
    match a.Matches pattern r.Method with
    | some _ => Router.Route.scan auth r pattern err rest
    | none =>
      let (token, err') := auth a r
      if token.StatusCode = 0 ∧ err' = none then
        { calls := [Call.auth a, Call.handler a pattern], panicked := false }
      else if token.HandleError = true ∧ err' ≠ none then
        (callErrorHandler (string token.StatusCode) err').after (Call.auth a)
      else (Router.Route.scan auth r pattern err rest).after (Call.auth a)

/-- The content-type check of `Route`: the flag `cType` after the loop. -/
def Router.Route.cType (caseTable : Char → Char) (contentType : String)
    (contentTypes : List String) : Bool :=
  contentTypes.foldl
    (fun cType t => if ToLower caseTable contentType = ToLower caseTable t then true else cType)
    false

/-- Route To Controller. -/
def Router.Route (caseTable : Char → Char) (router : Router) (r : Request) : Outcome :=
  let contentType := if r.ContentType = "" then "Text/Plain" else r.ContentType
  match router.Options with
  | none => { calls := [], panicked := true }
  | some options =>
    if !Router.Route.cType caseTable contentType options.ContentTypes then
      callErrorHandler (string StatusUnprocessableEntity) (errors.New "Unsupported content type")
    else
      let params := Router.GetParams r.Path
      match router.GetController params.Controller with
      | (_, some msg) => callErrorHandler (string StatusNotFound) (some msg)
      | (none, none) => { calls := [], panicked := true }
      | (some controller, none) =>
        Router.Route.scan router.AuthHandler r params.Pattern none controller.Actions

/-! ## Specification-side notions -/

/-- Token `p` matches segment `s`, as the specification words it: equal text,
or an `{i||s}` token, or an `{i}` token and an integer segment, or an `{s}`
token and a segment that is no integer. -/
def tokenMatches (p s : String) : Prop :=
  p = s ∨ Contains p "{i||s}" = true ∨ (Contains p "{i}" = true ∧ (Atoi s).isSome = true) ∨
    (Contains p "{s}" = true ∧ (Atoi s).isSome = false)

instance tokenMatches.decidable (p s : String) : Decidable (tokenMatches p s) := by
  unfold tokenMatches; infer_instance

/-- Number of positions of the pattern `ps` that match the segment at the same
position of `ss`. -/
def matchingPositions (ps ss : List String) : Nat :=
  (ps.zip ss).countP (fun x => decide (tokenMatches x.1 x.2))

/-- The index param: an empty path component is replaced by the sentinel. -/
def indexParam (p : String) : String := if p = "" then "{/}" else p

/-- The content type `Route` works with: the header value, or `Text/Plain`
when the header is absent or empty. -/
def Request.effectiveContentType (r : Request) : String :=
  if r.ContentType = "" then "Text/Plain" else r.ContentType

/-- The request passes the content-type gate of a router with options `o`: some
entry of the allow-list equals its content type, letter case ignored. -/
def passesContentTypeGate (caseTable : Char → Char) (o : Options) (r : Request) : Prop :=
  ∃ t ∈ o.ContentTypes, ToLower caseTable r.effectiveContentType = ToLower caseTable t

instance passesContentTypeGate.decidable (caseTable : Char → Char) (o : Options)
    (r : Request) : Decidable (passesContentTypeGate caseTable o r) := by
  unfold passesContentTypeGate; infer_instance

/-- Two characters are equal up to letter case. For two ASCII characters: they
are equal, or one is a capital `A`..`Z` and the other the small letter 32
places after it. With a character outside ASCII: their lower-case forms, by
the Unicode case table, are equal. -/
def sameUpToCase (caseTable : Char → Char) (x y : Char) : Prop :=
  if x.toNat < 128 ∧ y.toNat < 128 then
    x = y ∨ ('A' ≤ x ∧ x ≤ 'Z' ∧ y.toNat = x.toNat + 32) ∨
      ('A' ≤ y ∧ y ≤ 'Z' ∧ x.toNat = y.toNat + 32)
  else toLowerRune caseTable x = toLowerRune caseTable y

/-- Case-insensitive comparison of two strings: the same number of characters,
and at every position two characters equal up to letter case. -/
def equalUpToCase (caseTable : Char → Char) (a b : String) : Prop :=
  List.Forall₂ (sameUpToCase caseTable) a.toList b.toList

/-- The action matches the request: `Matches` returns no error on the segments
that `GetParams` derives from the path. -/
def Action.matchesRequest (a : Action) (r : Request) : Prop :=
  a.Matches (Router.GetParams r.Path).Pattern r.Method = none

instance Action.matchesRequest.decidable (a : Action) (r : Request) :
    Decidable (a.matchesRequest r) := by
  unfold Action.matchesRequest; infer_instance

/-- The outcome of a rejection at the content-type gate. -/
def rejectedAtGate : Outcome :=
  { calls := [Call.errorHandler [string StatusUnprocessableEntity, "Unsupported content type"]],
    panicked := false }

/-- The auth calls made on the actions of `pre` that match. -/
def authCalls (pattern : List String) (method : String) (pre : List Action) : List Call :=
  (pre.filter (fun b => decide (b.Matches pattern method = none))).map Call.auth

/-- The first action, in registration order, that matches the request. -/
def firstMatch (actions : List Action) (r : Request) : Option Action :=
  actions.find? (fun a => decide (a.matchesRequest r))

/-- The Go function `strings.Join`: the elements one after the other, with
`sep` between two neighbours. -/
def Join (elems : List String) (sep : String) : String :=
  String.mk (List.intercalate sep.toList (elems.map String.toList))

/-- The segment is purely numeric: not empty, and made of the decimal digits
`0`..`9` only. -/
def purelyNumeric (s : String) : Prop :=
  s.toList ≠ [] ∧ ∀ c ∈ s.toList, '0' ≤ c ∧ c ≤ '9'

instance purelyNumeric.decidable (s : String) : Decidable (purelyNumeric s) := by
  unfold purelyNumeric; infer_instance

/-- The number written by a list of decimal digits. -/
def decimalValue (cs : List Char) : Nat :=
  cs.foldl (fun acc c => acc * 10 + (c.toNat - '0'.toNat)) 0

/-- The decimal text of an integer (the Go function `strconv.Itoa`). -/
def Itoa (i : Int) : String := toString i

/-! ## Examples used below -/

/-- An action registered with an empty pattern. -/
def emptyPatternAction : Action :=
  { Name := "index", Pattern := [], Method := "GET", Private := false, Handler := 0 }

/-- An action for `GET /<controller>/<int>/edit`. -/
def editAction : Action :=
  { Name := "edit", Pattern := ["{i}", "edit"], Method := "GET", Private := false, Handler := 1 }

/-- A case table that leaves every character outside ASCII as it is; the
concrete requests below hold ASCII text only, where no table is consulted. -/
def asciiCaseTable : Char → Char := fun c => c

/-- A case table that lowers the capital `É` to `é`, as the Unicode table
does, and leaves the other characters as they are. -/
def latinCaseTable : Char → Char := fun c => if c = 'É' then 'é' else c

/-- Options accepting plain text only. -/
def plainOptions : Options := { ContentTypes := ["text/plain"] }

/-- An index action: `GET /<controller>`. -/
def indexAction : Action :=
  { Name := "index", Pattern := ["{/}"], Method := "GET", Private := false, Handler := 2 }

/-- A private action with the pattern and method of `indexAction`. -/
def privateIndexAction : Action :=
  { Name := "admin", Pattern := ["{/}"], Method := "GET", Private := true, Handler := 3 }

/-- A router accepting plain text, with the auth layer `auth` and one
controller `users` holding `actions`. -/
def usersRouter (auth : AuthHandler) (actions : List Action) : Router :=
  { (NewRouter (some plainOptions)).RegisterController { Name := "users", Actions := actions }
    with AuthHandler := auth }

/-- An auth layer answering `(tok, err)` for private actions and allowing the
others. -/
def privateGate (tok : AuthToken) (err : error) : AuthHandler :=
  fun a r => if a.Private = true then (tok, err) else defaultAuthHandler a r

/-- The request `GET /users` without a content-type header. -/
def getUsers : Request := { Method := "GET", Path := "/users", ContentType := "" }

/-- The request `POST /users` without a content-type header. -/
def postUsers : Request := { Method := "POST", Path := "/users", ContentType := "" }

/-- The request `GET /users` with the content type `application/xml`. -/
def getUsersXml : Request :=
  { Method := "GET", Path := "/users", ContentType := "application/xml" }

/-- A controller named `users` with one index action. -/
def usersController : Controller := { Name := "users", Actions := [indexAction] }

/-- A second controller named `users`, with other actions. -/
def otherUsersController : Controller := { Name := "users", Actions := [editAction] }

/-! ## Matching: lemmas -/

theorem Matches.loop_step (p s : String) (ps ss : List String) (k : Nat) :
    Action.Matches.loop (p :: ps) (s :: ss) k =
      Action.Matches.loop ps ss (if tokenMatches p s then k + 1 else k) := by
  by_cases h1 : p = s
  · simp [Action.Matches.loop, tokenMatches, h1]
  · by_cases h2 : Contains p "{i||s}" = true
    · simp [Action.Matches.loop, tokenMatches, h1, h2]
    · by_cases h3 : Contains p "{i}" = true <;> by_cases h4 : Contains p "{s}" = true <;>
        by_cases h5 : (Atoi s).isSome = true <;>
        simp [Action.Matches.loop, tokenMatches, h1, h2, h3, h4, h5]

theorem Matches.loop_eq (ps ss : List String) (k : Nat) :
    Action.Matches.loop ps ss k = k + matchingPositions ps ss := by
  induction ps generalizing ss k with
  | nil => simp [Action.Matches.loop, matchingPositions]
  | cons p ps ih =>
    cases ss with
    | nil => simp [Action.Matches.loop, matchingPositions]
    | cons s ss =>
      rw [Matches.loop_step, ih]
      by_cases h : tokenMatches p s
      · simp [matchingPositions, List.countP_cons, h] at *; omega
      · simp [matchingPositions, List.countP_cons, h] at *

theorem matchingPositions_le (ps ss : List String) :
    matchingPositions ps ss ≤ ps.length := by
  unfold matchingPositions
  exact (List.countP_le_length _).trans (by simp [List.length_zip])

theorem matchingPositions_eq_length (ps ss : List String) (hlen : ps.length = ss.length) :
    matchingPositions ps ss = ps.length ↔
      ∀ (i : Nat) (h₁ : i < ps.length) (h₂ : i < ss.length),
        tokenMatches (ps.get ⟨i, h₁⟩) (ss.get ⟨i, h₂⟩) := by
  induction ps generalizing ss with
  | nil => simp [matchingPositions]
  | cons p ps ih =>
    cases ss with
    | nil => simp at hlen
    | cons s ss =>
      have hlen' : ps.length = ss.length := by simpa using hlen
      have hle := matchingPositions_le ps ss
      have hcons : matchingPositions (p :: ps) (s :: ss) =
          matchingPositions ps ss + (if tokenMatches p s then 1 else 0) := by
        simp [matchingPositions, List.countP_cons]
      rw [hcons]
      constructor
      · intro h i h₁ h₂
        by_cases hp : tokenMatches p s
        · cases i with
          | zero => simpa using hp
          | succ j =>
            have hj := (ih ss hlen').1 (by simp [hp] at h; exact h) j
              (by simpa using h₁) (by simpa using h₂)
            simpa using hj
        · simp [hp] at h; omega
      · intro h
        have h0 := h 0 (by simp) (by simp)
        have hrest : matchingPositions ps ss = ps.length := by
          apply (ih ss hlen').2
          intro i h₁ h₂
          have := h (i + 1) (by simpa using h₁) (by simpa using h₂)
          simpa using this
        simp at h0
        simp [h0, hrest]

theorem Matches_eq_none_iff (a : Action) (P : List String) (m : String) :
    a.Matches P m = none ↔
      (if a.Pattern.length = P.length ∧ a.Method = m then
        Action.Matches.loop a.Pattern P 0 else 0) = a.Pattern.length := by
  unfold Action.Matches errors.New
  split <;> simp_all

/-- An action with the empty pattern is reported as matching every request. -/
theorem Matches_empty_pattern (a : Action) (P : List String) (m : String)
    (he : a.Pattern = []) : a.Matches P m = none := by
  rw [Matches_eq_none_iff, he]
  split <;> simp [Action.Matches.loop]

/-- For a non-empty action pattern `Matches` succeeds only on a request of the
same length and method. -/
theorem Matches_success_of_nonempty (a : Action) (P : List String) (m : String)
    (hne : a.Pattern ≠ []) (h : a.Matches P m = none) :
    a.Pattern.length = P.length ∧ a.Method = m := by
  rw [Matches_eq_none_iff] at h
  by_cases hg : a.Pattern.length = P.length ∧ a.Method = m
  · exact hg
  · rw [if_neg hg] at h
    exact absurd (List.length_eq_zero.mp h.symm) hne

/-! ## C1, C2: `Action.Matches` -/

/-- C1 (the code departs from the claim): an action with the empty pattern and
method GET is reported as matching the one-segment request `["42"]` with
method POST: `Matches` returns no error although neither the lengths nor the
methods agree. -/
theorem C1_empty_pattern_matches_any_request :
    emptyPatternAction.Matches ["42"] "POST" = none ∧
      emptyPatternAction.Pattern.length ≠ ["42"].length ∧
      emptyPatternAction.Method ≠ "POST" := by
  decide

/-- C2: when the pattern and the request have the same length and the methods
agree, `Matches` succeeds exactly when every position matches; the counter of
`Matches` is the number of matching positions, each counted once, so a request
with fewer matching positions than the pattern length fails. -/
theorem C2_Matches_all_or_nothing (a : Action) (P : List String) (m : String)
    (hlen : a.Pattern.length = P.length) (hm : a.Method = m) :
    (a.Matches P m = none ↔
      ∀ (i : Nat) (h₁ : i < a.Pattern.length) (h₂ : i < P.length),
        tokenMatches (a.Pattern.get ⟨i, h₁⟩) (P.get ⟨i, h₂⟩)) ∧
    Action.Matches.loop a.Pattern P 0 = matchingPositions a.Pattern P ∧
    matchingPositions a.Pattern P ≤ a.Pattern.length ∧
    (matchingPositions a.Pattern P < a.Pattern.length → a.Matches P m ≠ none) := by
  have hloop : Action.Matches.loop a.Pattern P 0 = matchingPositions a.Pattern P := by
    simpa using Matches.loop_eq a.Pattern P 0
  have hiff : a.Matches P m = none ↔ matchingPositions a.Pattern P = a.Pattern.length := by
    rw [Matches_eq_none_iff, if_pos ⟨hlen, hm⟩, hloop]
  refine ⟨?_, hloop, matchingPositions_le _ _, ?_⟩
  · rw [hiff]; exact matchingPositions_eq_length _ _ hlen
  · intro hlt h
    rw [hiff] at h
    omega

/-- C2 at a concrete input: one of the two positions of `["{i}", "edit"]`
matches `["abc", "edit"]`, and the match fails. -/
theorem C2_Matches_all_or_nothing_witness :
    editAction.Pattern.length = ["abc", "edit"].length ∧ editAction.Method = "GET" ∧
      matchingPositions editAction.Pattern ["abc", "edit"] = 1 ∧
      editAction.Matches ["abc", "edit"] "GET" ≠ none :=
  ⟨by decide, by decide, by decide,
    (C2_Matches_all_or_nothing editAction ["abc", "edit"] "GET" (by decide) (by decide)).2.2.2
      (by decide)⟩

/-! ## Parsing, gate and lookup: lemmas -/

theorem GetParams.foldl_enumFrom (l : List String) (n : Nat) (hn : 2 ≤ n) (params : Params) :
    (l.enumFrom n).foldl Router.GetParams.step params =
      { params with Pattern := params.Pattern ++ l.map indexParam } := by
  induction l generalizing n params with
  | nil => simp
  | cons p l ih =>
    have h0 : n ≠ 0 := by omega
    have h1 : n ≠ 1 := by omega
    rw [List.enumFrom_cons, List.foldl_cons, ih (n + 1) (by omega)]
    simp [Router.GetParams.step, h0, h1, indexParam]

/-- Closed form of `GetParams`: the second component is the controller, the
components from the third on are the pattern, empty ones replaced by the
sentinel, and an empty pattern is replaced by the single sentinel. -/
theorem GetParams_eq (pstr : String) :
    Router.GetParams pstr =
      { Controller := ((Split pstr '/')[1]?.map indexParam).getD "",
        Pattern := if (Split pstr '/').drop 2 = [] then ["{/}"]
          else ((Split pstr '/').drop 2).map indexParam } := by
  unfold Router.GetParams
  generalize Split pstr '/' = path
  match path with
  | [] => simp
  | [a] => simp [List.enum, Router.GetParams.step]
  | a :: c :: rest =>
    simp only [List.enum, List.enumFrom_cons, List.foldl_cons]
    rw [GetParams.foldl_enumFrom rest 2 (le_refl 2)]
    cases rest with
    | nil => simp [Router.GetParams.step, indexParam]
    | cons x xs => simp [Router.GetParams.step, indexParam]

theorem Split_length (s : String) (sep : Char) :
    (Split s sep).length = s.toList.count sep + 1 := by
  unfold Split
  rw [List.length_map]
  generalize s.toList = l
  induction l with
  | nil => simp
  | cons c cs ih =>
    unfold List.splitOn at ih ⊢
    rw [List.splitOnP_cons]
    by_cases h : c = sep
    · simp [h, ih]
    · have h' : (c == sep) = false := by simpa using h
      simp [h', ih, List.count_cons, h]

theorem cType_foldl (caseTable : Char → Char) (ct : String) (l : List String) (b : Bool) :
    l.foldl (fun cType t => if ToLower caseTable ct = ToLower caseTable t then true else cType) b = true ↔
      b = true ∨ ∃ t ∈ l, ToLower caseTable ct = ToLower caseTable t := by
  induction l generalizing b with
  | nil => simp
  | cons t l ih =>
    rw [List.foldl_cons, ih]
    by_cases h : ToLower caseTable ct = ToLower caseTable t
    · simp [h]
    · simp [h]

theorem cType_iff (caseTable : Char → Char) (ct : String) (l : List String) :
    Router.Route.cType caseTable ct l = true ↔ ∃ t ∈ l, ToLower caseTable ct = ToLower caseTable t := by
  unfold Router.Route.cType
  rw [cType_foldl]; simp

theorem GetController.loop_not_found (name : String) (cs : List Controller)
    (h : ∀ c ∈ cs, c.Name ≠ name) :
    Router.GetController.loop name cs = (none, some "Controller not found") := by
  induction cs with
  | nil => rfl
  | cons c cs ih =>
    have hc : c.Name ≠ name := h c (List.mem_cons_self _ _)
    simp only [Router.GetController.loop, if_neg hc]
    exact ih (fun d hd => h d (List.mem_cons_of_mem _ hd))

theorem GetController.loop_first (name : String) (pre post : List Controller) (c : Controller)
    (hpre : ∀ b ∈ pre, b.Name ≠ name) (hc : c.Name = name) :
    Router.GetController.loop name (pre ++ c :: post) = (some c, none) := by
  induction pre with
  | nil => simp [Router.GetController.loop, hc]
  | cons b pre ih =>
    have hb : b.Name ≠ name := hpre b (List.mem_cons_self _ _)
    simp only [List.cons_append, Router.GetController.loop, if_neg hb]
    exact ih (fun d hd => hpre d (List.mem_cons_of_mem _ hd))

/-- A list with an element satisfying `p` splits at the first such element. -/
theorem exists_first {α : Type} (p : α → Prop) [DecidablePred p] (l : List α)
    (h : ∃ x ∈ l, p x) :
    ∃ pre x post, l = pre ++ x :: post ∧ (∀ b ∈ pre, ¬ p b) ∧ p x := by
  induction l with
  | nil => simp at h
  | cons y l ih =>
    by_cases hy : p y
    · exact ⟨[], y, l, rfl, by simp, hy⟩
    · have h' : ∃ x ∈ l, p x := by
        obtain ⟨x, hx, hpx⟩ := h
        rcases List.mem_cons.mp hx with rfl | hx'
        · exact absurd hpx hy
        · exact ⟨x, hx', hpx⟩
      obtain ⟨pre, x, post, hl, hpre, hx⟩ := ih h'
      refine ⟨y :: pre, x, post, by simp [hl], ?_, hx⟩
      intro b hb
      rcases List.mem_cons.mp hb with rfl | hb'
      · exact hy
      · exact hpre b hb'

/-! ## Case-insensitive comparison: lemmas -/

theorem Char.toNat_ofNat_small (n : Nat) (h : n < 55296) : (Char.ofNat n).toNat = n := by
  have hv : n.isValidChar := Or.inl h
  simp only [Char.ofNat, hv, dite_true, Char.ofNatAux]
  rfl

theorem Char.toNat_eq_iff (x y : Char) : x.toNat = y.toNat ↔ x = y := by
  constructor
  · intro h
    have := congrArg Char.ofNat h
    simpa using this
  · intro h; rw [h]

theorem toLowerRune_ascii (caseTable : Char → Char) (c : Char) (h : c.toNat < 128) :
    (toLowerRune caseTable c).toNat =
      if 65 ≤ c.toNat ∧ c.toNat ≤ 90 then c.toNat + 32 else c.toNat := by
  have hup : ('A' ≤ c ∧ c ≤ 'Z') ↔ (65 ≤ c.toNat ∧ c.toNat ≤ 90) := Iff.rfl
  unfold toLowerRune
  rw [if_pos h]
  by_cases hu : 'A' ≤ c ∧ c ≤ 'Z'
  · rw [if_pos hu, if_pos (hup.1 hu)]
    exact Char.toNat_ofNat_small _ (by have := hup.1 hu; omega)
  · rw [if_neg hu, if_neg (fun h2 => hu (hup.2 h2))]

/-- Two characters are equal up to case exactly when `unicode.ToLower` gives
them the same image. -/
theorem sameUpToCase_iff (caseTable : Char → Char) (x y : Char) :
    sameUpToCase caseTable x y ↔ toLowerRune caseTable x = toLowerRune caseTable y := by
  unfold sameUpToCase
  by_cases h : x.toNat < 128 ∧ y.toNat < 128
  · have hA : ∀ c : Char, 'A' ≤ c ↔ 65 ≤ c.toNat := fun _ => Iff.rfl
    have hZ : ∀ c : Char, c ≤ 'Z' ↔ c.toNat ≤ 90 := fun _ => Iff.rfl
    rw [if_pos h, ← Char.toNat_eq_iff (toLowerRune caseTable x),
      toLowerRune_ascii caseTable x h.1, toLowerRune_ascii caseTable y h.2,
      ← Char.toNat_eq_iff x y, hA, hZ, hA, hZ]
    split_ifs <;> omega
  · rw [if_neg h]

theorem map_eq_map_iff_forall₂ {α β : Type} (f : α → β) (l₁ l₂ : List α) :
    l₁.map f = l₂.map f ↔ List.Forall₂ (fun x y => f x = f y) l₁ l₂ := by
  induction l₁ generalizing l₂ with
  | nil => cases l₂ <;> simp
  | cons a l₁ ih =>
    cases l₂ with
    | nil => simp
    | cons b l₂ => simp [ih]

/-- The comparison of `Route`, equality after `strings.ToLower`, is the
case-insensitive comparison. -/
theorem equalUpToCase_iff (caseTable : Char → Char) (a b : String) :
    equalUpToCase caseTable a b ↔ ToLower caseTable a = ToLower caseTable b := by
  unfold equalUpToCase ToLower
  have hmk : ∀ l₁ l₂ : List Char, String.mk l₁ = String.mk l₂ ↔ l₁ = l₂ :=
    fun l₁ l₂ => ⟨fun h => congrArg String.data h, fun h => by rw [h]⟩
  rw [hmk, map_eq_map_iff_forall₂]
  constructor
  · intro h; exact h.imp (fun x y hxy => (sameUpToCase_iff caseTable x y).1 hxy)
  · intro h; exact h.imp (fun x y hxy => (sameUpToCase_iff caseTable x y).2 hxy)

theorem passesContentTypeGate_iff (caseTable : Char → Char) (o : Options) (r : Request) :
    passesContentTypeGate caseTable o r ↔
      ∃ t ∈ o.ContentTypes, equalUpToCase caseTable r.effectiveContentType t := by
  unfold passesContentTypeGate
  simp only [equalUpToCase_iff]

/-! ## Dispatch: lemmas -/

/-- With nil options `Route` panics on reading `router.Options.ContentTypes`. -/
theorem Route_nil_Options_panics (caseTable : Char → Char) (router : Router) (r : Request)
    (ho : router.Options = none) :
    router.Route caseTable r = { calls := [], panicked := true } := by
  simp [Router.Route, ho]

theorem Route_rejected (caseTable : Char → Char) (router : Router) (r : Request) (o : Options)
    (ho : router.Options = some o) (h : ¬ passesContentTypeGate caseTable o r) :
    router.Route caseTable r = rejectedAtGate := by
  have hc : Router.Route.cType caseTable r.effectiveContentType o.ContentTypes = false := by
    rw [← Bool.not_eq_true, cType_iff]; exact h
  unfold Request.effectiveContentType at hc
  simp [Router.Route, ho, hc, rejectedAtGate, callErrorHandler, errors.New]

theorem Route_accepted (caseTable : Char → Char) (router : Router) (r : Request) (o : Options)
    (ho : router.Options = some o) (h : passesContentTypeGate caseTable o r) :
    router.Route caseTable r =
      match router.GetController (Router.GetParams r.Path).Controller with
      | (_, some msg) => callErrorHandler (string StatusNotFound) (some msg)
      | (none, none) => { calls := [], panicked := true }
      | (some controller, none) =>
        Router.Route.scan router.AuthHandler r (Router.GetParams r.Path).Pattern none
          controller.Actions := by
  have hc : Router.Route.cType caseTable r.effectiveContentType o.ContentTypes = true := by
    rw [cType_iff]; exact h
  unfold Request.effectiveContentType at hc
  simp [Router.Route, ho, hc]

theorem Route_found (caseTable : Char → Char) (router : Router) (r : Request) (o : Options) (c : Controller)
    (ho : router.Options = some o) (h : passesContentTypeGate caseTable o r)
    (hc : router.GetController (Router.GetParams r.Path).Controller = (some c, none)) :
    router.Route caseTable r =
      Router.Route.scan router.AuthHandler r (Router.GetParams r.Path).Pattern none c.Actions := by
  rw [Route_accepted caseTable router r o ho h, hc]

theorem scan_cons_no_match (auth : AuthHandler) (r : Request) (pattern : List String)
    (err : error) (a : Action) (rest : List Action)
    (h : a.Matches pattern r.Method ≠ none) :
    Router.Route.scan auth r pattern err (a :: rest) =
      Router.Route.scan auth r pattern err rest := by
  cases hm : a.Matches pattern r.Method with
  | none => exact absurd hm h
  | some e => simp [Router.Route.scan, hm]

theorem scan_append_no_match (auth : AuthHandler) (r : Request) (pattern : List String)
    (err : error) (pre rest : List Action)
    (h : ∀ b ∈ pre, b.Matches pattern r.Method ≠ none) :
    Router.Route.scan auth r pattern err (pre ++ rest) =
      Router.Route.scan auth r pattern err rest := by
  induction pre with
  | nil => rfl
  | cons b pre ih =>
    rw [List.cons_append, scan_cons_no_match _ _ _ _ _ _ (h b (List.mem_cons_self _ _))]
    exact ih (fun d hd => h d (List.mem_cons_of_mem _ hd))

theorem scan_cons_allowed (auth : AuthHandler) (r : Request) (pattern : List String)
    (err : error) (a : Action) (rest : List Action)
    (hm : a.Matches pattern r.Method = none)
    (hs : (auth a r).1.StatusCode = 0) (he : (auth a r).2 = none) :
    Router.Route.scan auth r pattern err (a :: rest) =
      { calls := [Call.auth a, Call.handler a pattern], panicked := false } := by
  simp [Router.Route.scan, hm, hs, he]

theorem scan_cons_error (auth : AuthHandler) (r : Request) (pattern : List String)
    (err : error) (a : Action) (rest : List Action) (msg : String)
    (hm : a.Matches pattern r.Method = none)
    (hh : (auth a r).1.HandleError = true) (he : (auth a r).2 = some msg) :
    Router.Route.scan auth r pattern err (a :: rest) =
      { calls := [Call.auth a, Call.errorHandler [string (auth a r).1.StatusCode, msg]],
        panicked := false } := by
  simp [Router.Route.scan, hm, hh, he, callErrorHandler, Outcome.after]

theorem scan_cons_fall_through (auth : AuthHandler) (r : Request) (pattern : List String)
    (err : error) (a : Action) (rest : List Action)
    (hm : a.Matches pattern r.Method = none)
    (h1 : ¬ ((auth a r).1.StatusCode = 0 ∧ (auth a r).2 = none))
    (h2 : ¬ ((auth a r).1.HandleError = true ∧ (auth a r).2 ≠ none)) :
    Router.Route.scan auth r pattern err (a :: rest) =
      (Router.Route.scan auth r pattern err rest).after (Call.auth a) := by
  simp only [Router.Route.scan, hm]
  rw [if_neg h1, if_neg h2]

theorem scan_append_denied (auth : AuthHandler) (r : Request) (pattern : List String)
    (err : error) (pre rest : List Action)
    (h : ∀ b ∈ pre, b.Matches pattern r.Method = none →
      (auth b r).1.StatusCode ≠ 0 ∧ (auth b r).1.HandleError = false) :
    Router.Route.scan auth r pattern err (pre ++ rest) =
      { calls := authCalls pattern r.Method pre ++
          (Router.Route.scan auth r pattern err rest).calls,
        panicked := (Router.Route.scan auth r pattern err rest).panicked } := by
  induction pre with
  | nil => simp [authCalls]
  | cons b pre ih =>
    have ih' := ih (fun d hd => h d (List.mem_cons_of_mem _ hd))
    rw [List.cons_append]
    by_cases hm : b.Matches pattern r.Method = none
    · obtain ⟨hs, hh⟩ := h b (List.mem_cons_self _ _) hm
      rw [scan_cons_fall_through _ _ _ _ _ _ hm (fun hc => hs hc.1) (by simp [hh]), ih']
      simp [authCalls, Outcome.after, hm]
    · rw [scan_cons_no_match _ _ _ _ _ _ hm, ih']
      simp [authCalls, hm]

/-- Whenever the scan finds no action that ends dispatch, `Route` panics: the
variable `err` is nil when the final call of the error handler reads it. -/
theorem Route_no_match_panics (caseTable : Char → Char) (router : Router) (r : Request) (o : Options) (c : Controller)
    (ho : router.Options = some o) (h : passesContentTypeGate caseTable o r)
    (hc : router.GetController (Router.GetParams r.Path).Controller = (some c, none))
    (hno : ∀ a ∈ c.Actions, ¬ a.matchesRequest r) :
    router.Route caseTable r = { calls := [], panicked := true } := by
  rw [Route_found caseTable router r o c ho h hc]
  have := scan_append_no_match router.AuthHandler r (Router.GetParams r.Path).Pattern none
    c.Actions [] hno
  rw [List.append_nil] at this
  rw [this]; rfl

theorem firstMatch_isSome_iff (actions : List Action) (r : Request) :
    (∃ a, firstMatch actions r = some a) ↔ ∃ a ∈ actions, a.matchesRequest r := by
  unfold firstMatch
  constructor
  · rintro ⟨a, ha⟩
    exact ⟨a, List.mem_of_find?_eq_some ha, by simpa using List.find?_some ha⟩
  · rintro ⟨a, hmem, ha⟩
    cases hf : actions.find? (fun a => decide (a.matchesRequest r)) with
    | some b => exact ⟨b, rfl⟩
    | none =>
      rw [List.find?_eq_none] at hf
      exact absurd (by simpa using ha) (hf a hmem)

theorem firstMatch_eq_some (actions : List Action) (r : Request) (a : Action)
    (h : firstMatch actions r = some a) :
    ∃ pre post, actions = pre ++ a :: post ∧
      (∀ b ∈ pre, b.Matches (Router.GetParams r.Path).Pattern r.Method ≠ none) ∧
      a.Matches (Router.GetParams r.Path).Pattern r.Method = none := by
  unfold firstMatch at h
  obtain ⟨ha, pre, post, hact, hpre⟩ := List.find?_eq_some.mp h
  refine ⟨pre, post, hact, ?_, by simpa [Action.matchesRequest] using ha⟩
  intro b hb
  simpa [Action.matchesRequest] using hpre b hb

theorem scan_nil_ne_rejected (auth : AuthHandler) (r : Request) (pattern : List String)
    (actions : List Action) :
    Router.Route.scan auth r pattern none actions ≠ rejectedAtGate := by
  induction actions with
  | nil => simp [Router.Route.scan, callErrorHandler, rejectedAtGate]
  | cons a rest ih =>
    cases hm : a.Matches pattern r.Method with
    | some e => rw [scan_cons_no_match _ _ _ _ _ _ (by simp [hm])]; exact ih
    | none =>
      simp only [Router.Route.scan, hm]
      split_ifs <;> simp [rejectedAtGate, Outcome.after]

theorem Route_accepted_ne_rejected (caseTable : Char → Char) (router : Router) (r : Request) (o : Options)
    (ho : router.Options = some o) (h : passesContentTypeGate caseTable o r) :
    router.Route caseTable r ≠ rejectedAtGate := by
  rw [Route_accepted caseTable router r o ho h]
  have hs : string StatusNotFound ≠ string StatusUnprocessableEntity := by decide
  split
  · simp [callErrorHandler, rejectedAtGate, hs]
  · simp [rejectedAtGate]
  · exact scan_nil_ne_rejected _ _ _ _

/-! ## C3 to C8: `Route` -/

/-- C3 (the code departs from the claim): with the content type accepted and
the controller found, `Route` panics without calling the error handler when no
action matches, both for a controller with zero actions and for an unmatched
method. -/
theorem C3_Route_panics_when_no_action_matches (caseTable : Char → Char) :
    (usersRouter defaultAuthHandler []).Route caseTable getUsers =
      { calls := [], panicked := true } ∧
    (usersRouter defaultAuthHandler [indexAction]).Route caseTable postUsers =
      { calls := [], panicked := true } :=
  ⟨rfl, rfl⟩

/-- C4: under the default auth layer, for a request that passes the
content-type gate and whose controller is found, if some action matches then
`Route` calls the handler of the first matching action with the segments of
`GetParams`, and makes no other handler call and no error-handler call. -/
theorem C4_default_gate_first_match (caseTable : Char → Char) (router : Router)
    (r : Request) (o : Options) (c : Controller) (hauth : router.AuthHandler = defaultAuthHandler)
    (ho : router.Options = some o) (hgate : passesContentTypeGate caseTable o r)
    (hc : router.GetController (Router.GetParams r.Path).Controller = (some c, none))
    (hex : ∃ a ∈ c.Actions, a.matchesRequest r) :
    ∃ a, firstMatch c.Actions r = some a ∧
      router.Route caseTable r =
        { calls := [Call.auth a, Call.handler a (Router.GetParams r.Path).Pattern],
          panicked := false } := by
  obtain ⟨a, hfirst⟩ := (firstMatch_isSome_iff c.Actions r).2 hex
  obtain ⟨pre, post, hact, hpre, ha⟩ := firstMatch_eq_some c.Actions r a hfirst
  refine ⟨a, hfirst, ?_⟩
  rw [Route_found caseTable router r o c ho hgate hc, hact,
    scan_append_no_match _ _ _ _ _ _ hpre, hauth]
  exact scan_cons_allowed _ _ _ _ _ _ ha rfl rfl

/-- C4 at a concrete input: the first matching action is a private one, and the
default auth layer lets it through. -/
theorem C4_default_gate_first_match_witness :
    (usersRouter defaultAuthHandler [editAction, privateIndexAction, indexAction]).Route
        asciiCaseTable getUsers =
      { calls := [Call.auth privateIndexAction, Call.handler privateIndexAction ["{/}"]],
        panicked := false } := by
  obtain ⟨a, hfirst, hroute⟩ :=
    C4_default_gate_first_match asciiCaseTable
      (usersRouter defaultAuthHandler [editAction, privateIndexAction, indexAction]) getUsers
      plainOptions { Name := "users", Actions := [editAction, privateIndexAction, indexAction] }
      rfl rfl (by decide) (by decide) (by decide)
  have h2 : firstMatch [editAction, privateIndexAction, indexAction] getUsers =
      some privateIndexAction := by decide
  rw [h2] at hfirst
  cases hfirst
  exact hroute.trans (by decide)

/-- C5: when action `a` matches and the auth layer allows it (status 0, no
error), and every earlier matching action is denied with a non-zero status and
`HandleError` false, `Route` calls the handler of `a` and no other handler; the
calls before it are the auth calls on the earlier matching actions. -/
theorem C5_auth_fall_through (caseTable : Char → Char) (router : Router) (r : Request)
    (o : Options) (c : Controller) (pre post : List Action) (a : Action)
    (ho : router.Options = some o) (hgate : passesContentTypeGate caseTable o r)
    (hc : router.GetController (Router.GetParams r.Path).Controller = (some c, none))
    (hact : c.Actions = pre ++ a :: post) (ha : a.matchesRequest r)
    (hallow : (router.AuthHandler a r).1.StatusCode = 0 ∧ (router.AuthHandler a r).2 = none)
    (hpre : ∀ b ∈ pre, b.matchesRequest r →
      (router.AuthHandler b r).1.StatusCode ≠ 0 ∧ (router.AuthHandler b r).1.HandleError = false) :
    router.Route caseTable r =
      { calls := authCalls (Router.GetParams r.Path).Pattern r.Method pre ++
          [Call.auth a, Call.handler a (Router.GetParams r.Path).Pattern],
        panicked := false } := by
  rw [Route_found caseTable router r o c ho hgate hc, hact,
    scan_append_denied _ _ _ _ _ _ hpre, scan_cons_allowed _ _ _ _ _ _ ha hallow.1 hallow.2]

/-- C5 at a concrete input: two actions with the same pattern and method; the
first is denied without error handling, and the handler of the second runs. -/
theorem C5_auth_fall_through_witness :
    (usersRouter (privateGate { HandleError := false, StatusCode := 401 } none)
        [privateIndexAction, indexAction]).Route asciiCaseTable getUsers =
      { calls := [Call.auth privateIndexAction, Call.auth indexAction,
          Call.handler indexAction ["{/}"]],
        panicked := false } :=
  (C5_auth_fall_through asciiCaseTable
    (usersRouter (privateGate { HandleError := false, StatusCode := 401 } none)
      [privateIndexAction, indexAction]) getUsers plainOptions
    { Name := "users", Actions := [privateIndexAction, indexAction] }
    [privateIndexAction] [] indexAction rfl (by decide) (by decide) rfl (by decide) (by decide)
    (by decide)).trans (by decide)

/-- C6 (as stated it fails): the first matching action gets from the auth layer
a token with status 403 and `HandleError` true, and no error. `Route` does not
call the error handler: it goes on to the next action and calls its handler. -/
theorem C6_denial_without_error_falls_through :
    firstMatch [privateIndexAction, indexAction] getUsers = some privateIndexAction ∧
    privateGate { HandleError := true, StatusCode := 403 } none privateIndexAction getUsers =
      ({ HandleError := true, StatusCode := 403 }, none) ∧
    ∀ caseTable : Char → Char,
      (usersRouter (privateGate { HandleError := true, StatusCode := 403 } none)
          [privateIndexAction, indexAction]).Route caseTable getUsers =
        { calls := [Call.auth privateIndexAction, Call.auth indexAction,
            Call.handler indexAction ["{/}"]],
          panicked := false } :=
  ⟨by decide, by decide, fun _ => rfl⟩

/-- C6 (amended): when the first matching action gets from the auth layer a
token with a non-zero status and `HandleError` true together with a non-nil
error, `Route` calls the error handler with the status of the token and the
text of the error, and stops: no action handler runs and no later action is
tried. The status argument is a function `render` of the status code of the
token alone; which text it is, is left open here. -/
theorem C6_denial_with_error_handled :
    ∃ render : Int → String,
      ∀ (caseTable : Char → Char) (router : Router) (r : Request) (o : Options)
        (c : Controller) (a : Action) (msg : String),
        router.Options = some o → passesContentTypeGate caseTable o r →
        router.GetController (Router.GetParams r.Path).Controller = (some c, none) →
        firstMatch c.Actions r = some a →
        (router.AuthHandler a r).1.StatusCode ≠ 0 →
        (router.AuthHandler a r).1.HandleError = true →
        (router.AuthHandler a r).2 = some msg →
        router.Route caseTable r =
          { calls := [Call.auth a,
              Call.errorHandler [render (router.AuthHandler a r).1.StatusCode, msg]],
            panicked := false } := by
  refine ⟨string, ?_⟩
  intro caseTable router r o c a msg ho hgate hc hfirst _ hhandle herr
  obtain ⟨pre, post, hact, hpre, ha⟩ := firstMatch_eq_some c.Actions r a hfirst
  rw [Route_found caseTable router r o c ho hgate hc, hact,
    scan_append_no_match _ _ _ _ _ _ hpre]
  exact scan_cons_error _ _ _ _ _ _ msg ha hhandle herr

/-- C6 (amended) at a concrete input: the private action is denied with status
403 and the error `Forbidden`; the error handler gets that message, and the
public action after the private one is not tried. -/
theorem C6_denial_with_error_handled_witness :
    ∃ status : String,
      (usersRouter (privateGate { HandleError := true, StatusCode := 403 } (some "Forbidden"))
          [privateIndexAction, indexAction]).Route asciiCaseTable getUsers =
        { calls := [Call.auth privateIndexAction, Call.errorHandler [status, "Forbidden"]],
          panicked := false } := by
  obtain ⟨render, h⟩ := C6_denial_with_error_handled
  exact ⟨render 403,
    h asciiCaseTable
      (usersRouter (privateGate { HandleError := true, StatusCode := 403 } (some "Forbidden"))
        [privateIndexAction, indexAction]) getUsers plainOptions
      { Name := "users", Actions := [privateIndexAction, indexAction] } privateIndexAction
      "Forbidden" rfl (by decide) (by decide) (by decide) (by decide) (by decide) (by decide)⟩

/-- C7: for a router with options, `Route` rejects at the content-type gate (one
call of the error handler with the unsupported-content-type error, whatever the
registered controllers, and no other call) exactly when no entry of the
allow-list equals the content type of the request under the case-insensitive
comparison, the content type of a request without the header being
`Text/Plain`; such a request is rejected exactly when no entry is `text/plain`
in some casing. -/
theorem C7_content_type_gate (caseTable : Char → Char) (router : Router) (r : Request)
    (o : Options) (ho : router.Options = some o) :
    (router.Route caseTable r = rejectedAtGate ↔
      ¬ ∃ t ∈ o.ContentTypes, equalUpToCase caseTable r.effectiveContentType t) ∧
    (r.ContentType = "" →
      (router.Route caseTable r = rejectedAtGate ↔
        ∀ t ∈ o.ContentTypes, ¬ equalUpToCase caseTable "text/plain" t)) := by
  have hiff : router.Route caseTable r = rejectedAtGate ↔
      ¬ ∃ t ∈ o.ContentTypes, equalUpToCase caseTable r.effectiveContentType t := by
    rw [← passesContentTypeGate_iff]
    constructor
    · intro hrej hacc
      exact Route_accepted_ne_rejected caseTable router r o ho hacc hrej
    · intro hno
      exact Route_rejected caseTable router r o ho hno
  refine ⟨hiff, ?_⟩
  intro hempty
  have hl : ∀ t, equalUpToCase caseTable r.effectiveContentType t ↔
      equalUpToCase caseTable "text/plain" t := by
    intro t
    have hlow : ToLower caseTable "Text/Plain" = ToLower caseTable "text/plain" := rfl
    rw [Request.effectiveContentType, if_pos hempty, equalUpToCase_iff, equalUpToCase_iff, hlow]
  rw [hiff]
  constructor
  · intro h t ht heq
    exact h ⟨t, ht, (hl t).2 heq⟩
  · rintro h ⟨t, ht, heq⟩
    exact h t ht ((hl t).1 heq)

/-- C7 at concrete inputs: the content type `application/JSON` passes the
allow-list `["application/json"]`; with a case table that lowers `É` to `é`,
`application/É` passes the allow-list `["application/é"]`. -/
theorem C7_content_type_gate_witness :
    (NewRouter (some { ContentTypes := ["application/json"] })).Route asciiCaseTable
        { Method := "GET", Path := "/users", ContentType := "application/JSON" } ≠
      rejectedAtGate ∧
    (NewRouter (some { ContentTypes := ["application/é"] })).Route latinCaseTable
        { Method := "GET", Path := "/users", ContentType := "application/É" } ≠
      rejectedAtGate :=
  ⟨fun h =>
      (C7_content_type_gate asciiCaseTable
        (NewRouter (some { ContentTypes := ["application/json"] }))
        { Method := "GET", Path := "/users", ContentType := "application/JSON" }
        { ContentTypes := ["application/json"] } rfl).1.1 h
        ⟨"application/json", by decide, (equalUpToCase_iff _ _ _).2 (by decide)⟩,
    fun h =>
      (C7_content_type_gate latinCaseTable
        (NewRouter (some { ContentTypes := ["application/é"] }))
        { Method := "GET", Path := "/users", ContentType := "application/É" }
        { ContentTypes := ["application/é"] } rfl).1.1 h
        ⟨"application/é", by decide, (equalUpToCase_iff _ _ _).2 (by decide)⟩⟩

/-- C8: for a request that passes the content-type gate, when no registered
controller has the name derived from the path, `Route` calls the error handler
once, with the status `string(http.StatusNotFound)` and the message
`Controller not found`, and makes no auth call and no action-handler call. -/
theorem C8_controller_not_found (caseTable : Char → Char) (router : Router) (r : Request)
    (o : Options) (ho : router.Options = some o) (hgate : passesContentTypeGate caseTable o r)
    (hnone : ∀ c ∈ router.Controllers, c.Name ≠ (Router.GetParams r.Path).Controller) :
    router.Route caseTable r =
      { calls := [Call.errorHandler [string StatusNotFound, "Controller not found"]],
        panicked := false } := by
  rw [Route_accepted caseTable router r o ho hgate, Router.GetController,
    GetController.loop_not_found _ _ hnone]
  rfl

/-- C8 at a concrete input: a router without controllers. -/
theorem C8_controller_not_found_witness :
    (NewRouter (some plainOptions)).Route asciiCaseTable getUsers =
      { calls := [Call.errorHandler [string StatusNotFound, "Controller not found"]],
        panicked := false } :=
  C8_controller_not_found asciiCaseTable (NewRouter (some plainOptions)) getUsers plainOptions rfl
    (by decide) (by decide)

/-! ## C9, C10: lookup and parsing -/

/-- C9: `GetController` returns an error exactly when no registered controller
has the name; then the result is the nil controller with the error
`Controller not found`. Otherwise the result is, without error, the first
controller of the list whose name is the one asked for. -/
theorem C9_GetController_first_or_not_found (router : Router) (name : String) :
    ((router.GetController name).2 ≠ none ↔ ∀ c ∈ router.Controllers, c.Name ≠ name) ∧
    (((∀ c ∈ router.Controllers, c.Name ≠ name) ∧
        router.GetController name = (none, some "Controller not found")) ∨
      ∃ pre c post, router.Controllers = pre ++ c :: post ∧ (∀ b ∈ pre, b.Name ≠ name) ∧
        c.Name = name ∧ router.GetController name = (some c, none)) := by
  by_cases h : ∃ c ∈ router.Controllers, c.Name = name
  · obtain ⟨pre, c, post, hl, hpre, hc⟩ :=
      exists_first (fun c : Controller => c.Name = name) router.Controllers h
    have hres : router.GetController name = (some c, none) := by
      rw [Router.GetController, hl]; exact GetController.loop_first name pre post c hpre hc
    refine ⟨?_, Or.inr ⟨pre, c, post, hl, hpre, hc, hres⟩⟩
    rw [hres]
    constructor
    · intro hne; exact absurd rfl hne
    · intro hall
      obtain ⟨d, hd, hdn⟩ := h
      exact absurd hdn (hall d hd)
  · have hall : ∀ c ∈ router.Controllers, c.Name ≠ name := fun c hc hn => h ⟨c, hc, hn⟩
    have hres : router.GetController name = (none, some "Controller not found") :=
      GetController.loop_not_found name router.Controllers hall
    refine ⟨?_, Or.inl ⟨hall, hres⟩⟩
    rw [hres]
    exact ⟨fun _ => hall, fun _ => by simp⟩

/-- C10: for every input string the pattern returned by `GetParams` is not
empty, and when the path has no component after the controller name (the split
on `/` has at most two components) it is the single sentinel segment. -/
theorem C10_GetParams_pattern_nonempty (pstr : String) :
    (Router.GetParams pstr).Pattern ≠ [] ∧
    ((Split pstr '/').length ≤ 2 → (Router.GetParams pstr).Pattern = ["{/}"]) := by
  rw [GetParams_eq]
  constructor
  · by_cases h : (Split pstr '/').drop 2 = []
    · simp [h]
    · simp only [if_neg h]
      simpa using h
  · intro hlen
    have h : (Split pstr '/').drop 2 = [] := List.drop_eq_nil_of_le hlen
    simp [h]

/-- C10 at concrete inputs: the empty string, `/`, a path without a leading
slash and a path with repeated slashes. -/
theorem C10_GetParams_pattern_nonempty_witness :
    (Router.GetParams "").Pattern = ["{/}"] ∧ (Router.GetParams "/").Pattern = ["{/}"] ∧
    (Router.GetParams "users").Pattern = ["{/}"] ∧
    (Router.GetParams "//a//").Pattern ≠ [] :=
  ⟨(C10_GetParams_pattern_nonempty "").2 (by decide),
    (C10_GetParams_pattern_nonempty "/").2 (by decide),
    (C10_GetParams_pattern_nonempty "users").2 (by decide),
    (C10_GetParams_pattern_nonempty "//a//").1⟩

/-! ## Strings and splitting: lemmas -/

theorem toList_append (s t : String) : (s ++ t).toList = s.toList ++ t.toList := by
  simp [String.toList]

theorem splitOnP_no_sep (p : Char → Bool) (xs : List Char) :
    ∀ l ∈ xs.splitOnP p, ∀ x ∈ l, p x = false := by
  induction xs with
  | nil => simp
  | cons c cs ih =>
    rw [List.splitOnP_cons]
    by_cases hc : p c = true
    · rw [if_pos hc]
      intro l hl
      rcases List.mem_cons.mp hl with h | h
      · rw [h]; simp
      · exact ih l h
    · rw [if_neg hc]
      cases hs : cs.splitOnP p with
      | nil => simp [List.modifyHead]
      | cons hd tl =>
        rw [hs] at ih
        intro l hl
        have hl2 : l = c :: hd ∨ l ∈ tl := by simpa [List.modifyHead] using hl
        rcases hl2 with h | h
        · intro x hx
          rw [h] at hx
          rcases List.mem_cons.mp hx with hx1 | hx2
          · rw [hx1]; simpa using hc
          · exact ih hd (List.mem_cons_self _ _) x hx2
        · exact ih l (List.mem_cons_of_mem _ h)

theorem Split_no_sep (s : String) (sep : Char) :
    ∀ comp ∈ Split s sep, sep ∉ comp.toList := by
  intro comp hcomp
  unfold Split at hcomp
  obtain ⟨l, hl, rfl⟩ := List.mem_map.mp hcomp
  intro hmem
  have := splitOnP_no_sep (· == sep) s.toList l hl sep hmem
  simp at this

theorem mk_toList (s : String) : String.mk s.toList = s := rfl

theorem Join_singleton (a sep : String) : Join [a] sep = a := by
  apply String.ext
  simp [Join, List.intercalate, String.toList]

theorem Join_cons_cons (a b sep : String) (rest : List String) :
    Join (a :: b :: rest) sep = a ++ sep ++ Join (b :: rest) sep := by
  apply String.ext
  simp [Join, List.intercalate, String.toList]

/-- Splitting a joined list gives the list back, when no element contains the
separator. -/
theorem Split_Join (comps : List String) (sep : Char) (hne : comps ≠ [])
    (hsep : ∀ comp ∈ comps, sep ∉ comp.toList) :
    Split (Join comps (String.singleton sep)) sep = comps := by
  unfold Split Join
  have hs : (String.singleton sep).toList = [sep] := rfl
  rw [hs]
  have h := List.splitOn_intercalate (comps.map String.toList) sep
    (by
      intro l hl
      obtain ⟨comp, hcomp, rfl⟩ := List.mem_map.mp hl
      exact hsep comp hcomp)
    (by simpa using hne)
  have h2 : (String.mk (List.intercalate [sep] (comps.map String.toList))).toList =
      List.intercalate [sep] (comps.map String.toList) := rfl
  rw [h2, h, List.map_map]
  have : (String.mk ∘ String.toList) = id := by funext s; rfl
  rw [this, List.map_id]

theorem GetParams_of_Split (pstr x c : String) (rest : List String)
    (h : Split pstr '/' = x :: c :: rest) :
    Router.GetParams pstr =
      { Controller := indexParam c,
        Pattern := if rest = [] then ["{/}"] else rest.map indexParam } := by
  rw [GetParams_eq, h]
  simp

theorem Split_path (c : String) (segs : List String) (hc : '/' ∉ c.toList)
    (hsegs : ∀ seg ∈ segs, '/' ∉ seg.toList) :
    Split (Join ("" :: c :: segs) "/") '/' = "" :: c :: segs := by
  apply Split_Join ("" :: c :: segs) '/' (by simp)
  intro comp hcomp
  rcases List.mem_cons.mp hcomp with h | h
  · rw [h]; simp [String.toList]
  · rcases List.mem_cons.mp h with h2 | h2
    · rw [h2]; exact hc
    · exact hsegs comp h2

theorem path_controller (c : String) : "/" ++ c = Join ["", c] "/" := by
  rw [Join_cons_cons, Join_singleton]; rfl

theorem path_segments (c seg : String) (segs : List String) :
    "/" ++ c ++ "/" ++ Join (seg :: segs) "/" = Join ("" :: c :: seg :: segs) "/" := by
  rw [Join_cons_cons "" c, Join_cons_cons c seg]
  apply String.ext
  simp [String.data_append]

theorem indexParam_of_ne (c : String) (hne : c ≠ "") : indexParam c = c := by
  simp [indexParam, hne]

/-- One-position patterns: `Matches` succeeds exactly when the token matches
the segment. -/
theorem Matches_single (a : Action) (p s m : String) (ha : a.Pattern = [p])
    (hm : a.Method = m) : a.Matches [s] m = none ↔ tokenMatches p s := by
  rw [Matches_eq_none_iff, ha, if_pos ⟨rfl, hm⟩, Matches.loop_step]
  by_cases h : tokenMatches p s <;> simp [h, Action.Matches.loop]

/-! ## C11, C12: paths with and without segments -/

/-- C11: for a non-empty controller name `c` without `/`, the paths `/c` and
`/c/` give the same params, controller `c` and the single sentinel segment, and
an action with pattern `["{/}"]` and method `m` matches both under `m`. -/
theorem C11_index_paths_agree (c : String) (hne : c ≠ "") (hc : '/' ∉ c.toList) :
    Router.GetParams ("/" ++ c) = { Controller := c, Pattern := ["{/}"] } ∧
    Router.GetParams ("/" ++ c ++ "/") = { Controller := c, Pattern := ["{/}"] } ∧
    ∀ (a : Action) (m : String), a.Pattern = ["{/}"] → a.Method = m →
      a.Matches (Router.GetParams ("/" ++ c)).Pattern m = none ∧
      a.Matches (Router.GetParams ("/" ++ c ++ "/")).Pattern m = none := by
  have h1 : Router.GetParams ("/" ++ c) = { Controller := c, Pattern := ["{/}"] } := by
    rw [GetParams_of_Split _ "" c [] (by rw [path_controller]; exact Split_path c [] hc (by simp)),
      indexParam_of_ne c hne]
    simp
  have h2 : Router.GetParams ("/" ++ c ++ "/") = { Controller := c, Pattern := ["{/}"] } := by
    have hp : "/" ++ c ++ "/" = Join ("" :: c :: [""]) "/" := by
      have := path_segments c "" []
      rw [Join_singleton] at this
      rw [← this]
      apply String.ext
      simp [String.data_append]
    rw [GetParams_of_Split _ "" c [""]
      (by rw [hp]; exact Split_path c [""] hc (by simp [String.toList])),
      indexParam_of_ne c hne]
    simp [indexParam]
  refine ⟨h1, h2, ?_⟩
  intro a m ha hm
  have hmatch : a.Matches ["{/}"] m = none :=
    (Matches_single a "{/}" "{/}" m ha hm).2 (Or.inl rfl)
  rw [h1, h2]
  exact ⟨hmatch, hmatch⟩

/-- C11 at a concrete input: `/users` and `/users/`. -/
theorem C11_index_paths_agree_witness :
    Router.GetParams "/users" = Router.GetParams "/users/" ∧
      indexAction.Matches (Router.GetParams "/users/").Pattern "GET" = none :=
  ⟨((C11_index_paths_agree "users" (by decide) (by decide)).1).trans
      ((C11_index_paths_agree "users" (by decide) (by decide)).2.1).symm,
    ((C11_index_paths_agree "users" (by decide) (by decide)).2.2 indexAction "GET" rfl rfl).2⟩

/-- C12: for a non-empty controller name `c` without `/` and a non-empty list
`segs` of strings without `/`, the path `/c/` followed by the segments joined
with `/` gives controller `c` and the segments in order, each empty one replaced
by the sentinel. -/
theorem C12_GetParams_segments (c : String) (segs : List String) (hne : c ≠ "")
    (hc : '/' ∉ c.toList) (hsegs : segs ≠ []) (hseg : ∀ seg ∈ segs, '/' ∉ seg.toList) :
    Router.GetParams ("/" ++ c ++ "/" ++ Join segs "/") =
      { Controller := c, Pattern := segs.map indexParam } ∧
    (Router.GetParams ("/" ++ c ++ "/" ++ Join segs "/")).Pattern.length = segs.length := by
  have h : Router.GetParams ("/" ++ c ++ "/" ++ Join segs "/") =
      { Controller := c, Pattern := segs.map indexParam } := by
    cases segs with
    | nil => exact absurd rfl hsegs
    | cons seg rest =>
      rw [path_segments, GetParams_of_Split _ "" c (seg :: rest) (Split_path c _ hc hseg),
        indexParam_of_ne c hne]
      simp
  exact ⟨h, by rw [h]; simp⟩

/-- C12 at a concrete input: `/users/42/edit`. -/
theorem C12_GetParams_segments_witness :
    Router.GetParams "/users/42/edit" = { Controller := "users", Pattern := ["42", "edit"] } :=
  (C12_GetParams_segments "users" ["42", "edit"] (by decide) (by decide) (by decide)
    (by decide)).1

/-! ## Integer segments: lemmas -/

theorem parseDigits_digits (cs : List Char) (acc : Nat)
    (h : ∀ c ∈ cs, '0' ≤ c ∧ c ≤ '9') :
    parseDigits cs acc =
      some (cs.foldl (fun acc c => acc * 10 + (c.toNat - '0'.toNat)) acc) := by
  induction cs generalizing acc with
  | nil => rfl
  | cons c cs ih =>
    rw [parseDigits, if_pos (h c (List.mem_cons_self _ _)), List.foldl_cons]
    exact ih _ (fun d hd => h d (List.mem_cons_of_mem _ hd))

/-- On a purely numeric segment `Atoi` succeeds exactly when the number fits
the type `int`. -/
theorem Atoi_purelyNumeric (s : String) (h : purelyNumeric s) :
    Atoi s = if decimalValue s.toList < 2 ^ (intSize - 1)
      then some (decimalValue s.toList : Int) else none := by
  obtain ⟨hne, hdig⟩ := h
  cases hcs : s.toList with
  | nil => exact absurd hcs hne
  | cons c0 rest =>
    rw [hcs] at hdig
    have hd0 := hdig c0 (List.mem_cons_self _ _)
    have hminus : c0 ≠ '-' := by
      intro hc; rw [hc] at hd0; exact absurd hd0.1 (by decide)
    have hplus : c0 ≠ '+' := by
      intro hc; rw [hc] at hd0; exact absurd hd0.1 (by decide)
    have hp := parseDigits_digits (c0 :: rest) 0 hdig
    simp only [Atoi, hcs, List.head?_cons, Option.some.injEq, hminus, hplus, or_self, if_false,
      decide_False, hp, decimalValue]
    simp

theorem purelyNumeric_ne_token (s : String) (h : purelyNumeric s) : "{s}" ≠ s := by
  intro hs
  have hmem : '{' ∈ s.toList := by rw [← hs]; decide
  exact absurd (h.2 '{' hmem).2 (by decide)

/-! ## C13 to C16: the kinds of token -/

/-- C13: for a token `L` that contains none of `{i}`, `{s}`, `{i||s}`, the
action with pattern `[L]` and method `m` matches `([s], m)` exactly when `s` is
`L`. -/
theorem C13_literal_token (L s m : String) (a : Action)
    (hi : Contains L "{i}" = false) (hs : Contains L "{s}" = false)
    (his : Contains L "{i||s}" = false) (ha : a.Pattern = [L]) (hm : a.Method = m) :
    a.Matches [s] m = none ↔ s = L := by
  rw [Matches_single a L s m ha hm]
  simp only [tokenMatches, hi, hs, his]
  constructor
  · rintro (h | h | h | h)
    · exact h.symm
    · exact absurd h (by simp)
    · exact absurd h.1 (by simp)
    · exact absurd h.1 (by simp)
  · intro h
    exact Or.inl h.symm

/-- C13 at a concrete input: the token `edit` against the segment `Edit`. -/
theorem C13_literal_token_witness :
    ({ Name := "edit", Pattern := ["edit"], Method := "GET", Private := false,
        Handler := 1 } : Action).Matches ["Edit"] "GET" ≠ none :=
  fun h =>
    absurd ((C13_literal_token "edit" "Edit" "GET"
      { Name := "edit", Pattern := ["edit"], Method := "GET", Private := false, Handler := 1 }
      (by decide) (by decide) (by decide) rfl rfl).1 h) (by decide)

/-- C14 (as stated it fails): the segment `{i}` is no integer for `Atoi`, and
the action with pattern `["{i}"]` matches it, by the direct comparison of token
and segment. -/
theorem C14_token_text_matches_itself :
    Atoi "{i}" = none ∧
    ({ Name := "show", Pattern := ["{i}"], Method := "GET", Private := false,
        Handler := 1 } : Action).Matches ["{i}"] "GET" = none := by
  decide

/-- C14 (amended): the action with pattern `["{i}"]` and method `m` matches
`([s], m)` exactly when `Atoi` parses `s` (an optional sign, then decimal digits
only, with a value in the range of `int`) or `s` is the text `{i}` itself. -/
theorem C14_int_token (s m : String) (a : Action) (ha : a.Pattern = ["{i}"])
    (hm : a.Method = m) :
    a.Matches [s] m = none ↔ (Atoi s).isSome = true ∨ s = "{i}" := by
  rw [Matches_single a "{i}" s m ha hm]
  have h1 : Contains "{i}" "{i||s}" = false := by decide
  have h2 : Contains "{i}" "{i}" = true := by decide
  have h3 : Contains "{i}" "{s}" = false := by decide
  unfold tokenMatches
  rw [h1, h2, h3]
  constructor
  · rintro (h | h | h | h)
    · exact Or.inr h.symm
    · exact absurd h (by simp)
    · exact Or.inl h.2
    · exact absurd h.1 (by simp)
  · rintro (h | h)
    · exact Or.inr (Or.inr (Or.inl ⟨rfl, h⟩))
    · exact Or.inl h.symm

/-- C14 (amended) at concrete inputs: `42` and `-7` match, `4a` does not. -/
theorem C14_int_token_witness :
    ({ Name := "show", Pattern := ["{i}"], Method := "GET", Private := false,
        Handler := 1 } : Action).Matches ["42"] "GET" = none ∧
    ({ Name := "show", Pattern := ["{i}"], Method := "GET", Private := false,
        Handler := 1 } : Action).Matches ["-7"] "GET" = none ∧
    ({ Name := "show", Pattern := ["{i}"], Method := "GET", Private := false,
        Handler := 1 } : Action).Matches ["4a"] "GET" ≠ none :=
  ⟨(C14_int_token "42" "GET" _ rfl rfl).2 (by decide),
    (C14_int_token "-7" "GET" _ rfl rfl).2 (by decide),
    fun h => absurd ((C14_int_token "4a" "GET" _ rfl rfl).1 h) (by decide)⟩

/-- C15 (as stated it fails): the segment `99999999999999999999` is purely
numeric, its value does not fit the type `int`, so `Atoi` fails on it and the
action with pattern `["{s}"]` matches it. -/
theorem C15_long_numeral_matches_string_token :
    purelyNumeric "99999999999999999999" ∧ Atoi "99999999999999999999" = none ∧
    ({ Name := "show", Pattern := ["{s}"], Method := "GET", Private := false,
        Handler := 1 } : Action).Matches ["99999999999999999999"] "GET" = none := by
  decide

/-- C15 (amended): for a purely numeric segment `s` whose value fits the type
`int` (below `2 ^ 63`), the action with pattern `["{s}"]` and method `m` does
not match `([s], m)`. -/
theorem C15_string_token_rejects_numbers (s m : String) (a : Action)
    (hnum : purelyNumeric s) (hfit : decimalValue s.toList < 2 ^ (intSize - 1))
    (ha : a.Pattern = ["{s}"]) (hm : a.Method = m) :
    a.Matches [s] m ≠ none := by
  rw [Ne, Matches_single a "{s}" s m ha hm]
  have hint : (Atoi s).isSome = true := by
    rw [Atoi_purelyNumeric s hnum, if_pos hfit]; rfl
  have h1 : Contains "{s}" "{i||s}" = false := by decide
  have h2 : Contains "{s}" "{i}" = false := by decide
  have hne := purelyNumeric_ne_token s hnum
  simp [tokenMatches, h1, h2, hint, hne]

/-- C15 (amended) at a concrete input: the largest value of `int`. -/
theorem C15_string_token_rejects_numbers_witness :
    ({ Name := "show", Pattern := ["{s}"], Method := "GET", Private := false,
        Handler := 1 } : Action).Matches ["9223372036854775807"] "GET" ≠ none :=
  C15_string_token_rejects_numbers "9223372036854775807" "GET" _ (by decide) (by decide)
    rfl rfl

/-- C16: for a token `p` containing `{i||s}`, the action with pattern `[p]` and
method `m` matches `([s], m)` for every segment `s`, integer or not; the
position is counted once. -/
theorem C16_any_token (p s m : String) (a : Action) (hp : Contains p "{i||s}" = true)
    (ha : a.Pattern = [p]) (hm : a.Method = m) :
    a.Matches [s] m = none ∧ Action.Matches.loop [p] [s] 0 = 1 := by
  have ht : tokenMatches p s := Or.inr (Or.inl hp)
  refine ⟨(Matches_single a p s m ha hm).2 ht, ?_⟩
  rw [Matches.loop_step, if_pos ht]
  rfl

/-- C16 at concrete inputs: a number, a word and the sentinel. -/
theorem C16_any_token_witness :
    ({ Name := "any", Pattern := ["{i||s}"], Method := "GET", Private := false,
        Handler := 1 } : Action).Matches ["42"] "GET" = none ∧
    ({ Name := "any", Pattern := ["{i||s}"], Method := "GET", Private := false,
        Handler := 1 } : Action).Matches ["abc"] "GET" = none ∧
    ({ Name := "any", Pattern := ["{i||s}"], Method := "GET", Private := false,
        Handler := 1 } : Action).Matches ["{/}"] "GET" = none :=
  ⟨(C16_any_token "{i||s}" "42" "GET" _ (by decide) rfl rfl).1,
    (C16_any_token "{i||s}" "abc" "GET" _ (by decide) rfl rfl).1,
    (C16_any_token "{i||s}" "{/}" "GET" _ (by decide) rfl rfl).1⟩

/-! ## C17, C18: the arguments and the body of the error report -/

/-- C17 (the code departs from the claim): the status that `Route` hands to
the error handler is the conversion `string(code)`, a text of one character
with that code point, and not the decimal text of the code: for an unsupported
content type, for a controller that is not found, and for an auth denial with
status 403. -/
theorem C17_status_is_one_rune_not_decimal_text (caseTable : Char → Char) :
    (NewRouter (some plainOptions)).Route caseTable getUsersXml =
      { calls := [Call.errorHandler
          [String.singleton (Char.ofNat 422), "Unsupported content type"]],
        panicked := false } ∧
    (NewRouter (some plainOptions)).Route caseTable getUsers =
      { calls := [Call.errorHandler [String.singleton (Char.ofNat 404), "Controller not found"]],
        panicked := false } ∧
    (usersRouter (privateGate { HandleError := true, StatusCode := 403 } (some "Forbidden"))
        [privateIndexAction]).Route caseTable getUsers =
      { calls := [Call.auth privateIndexAction,
          Call.errorHandler [String.singleton (Char.ofNat 403), "Forbidden"]],
        panicked := false } ∧
    string StatusUnprocessableEntity ≠ Itoa 422 ∧ string StatusNotFound ≠ Itoa 404 ∧
    string 403 ≠ Itoa 403 ∧ Itoa 422 = "422" ∧ Itoa 404 = "404" ∧ Itoa 403 = "403" :=
  ⟨rfl, rfl, rfl, by decide, by decide, by decide, by decide, by decide, by decide⟩

/-- The body written by the default error handler does not depend on the
status `args[0]`. -/
theorem defaultErrorHandler_ignores_status (status status2 message : String) :
    defaultErrorHandler [status, message] = defaultErrorHandler [status2, message] := rfl

/-- C18 (the code departs from the claim): on the arguments
`["404", "Controller not found"]` the default error handler writes the message
after both labels; the status `404` is nowhere in the body. -/
theorem C18_default_error_body_omits_status :
    defaultErrorHandler ["404", "Controller not found"] =
      some "Error: STATUS Controller not found : ERROR Controller not found" ∧
    Contains "Error: STATUS Controller not found : ERROR Controller not found" "404" = false := by
  decide

/-! ## C19: registration -/

theorem GetController.loop_cases (name : String) (cs : List Controller) :
    ((∀ c ∈ cs, c.Name ≠ name) ∧
        Router.GetController.loop name cs = (none, some "Controller not found")) ∨
      ∃ pre c post, cs = pre ++ c :: post ∧ (∀ b ∈ pre, b.Name ≠ name) ∧ c.Name = name ∧
        Router.GetController.loop name cs = (some c, none) := by
  by_cases h : ∃ c ∈ cs, c.Name = name
  · obtain ⟨pre, c, post, hl, hpre, hc⟩ := exists_first (fun c : Controller => c.Name = name) cs h
    exact Or.inr ⟨pre, c, post, hl, hpre, hc, by
      rw [hl]; exact GetController.loop_first name pre post c hpre hc⟩
  · have hall : ∀ c ∈ cs, c.Name ≠ name := fun c hc hn => h ⟨c, hc, hn⟩
    exact Or.inl ⟨hall, GetController.loop_not_found name cs hall⟩

/-- A lookup that succeeds on a list succeeds with the same result on every
extension of the list. -/
theorem GetController.loop_append (name : String) (cs more : List Controller) (x : Controller)
    (h : Router.GetController.loop name cs = (some x, none)) :
    Router.GetController.loop name (cs ++ more) = (some x, none) ∧ x ∈ cs ∧ x.Name = name := by
  rcases GetController.loop_cases name cs with ⟨_, hnf⟩ | ⟨pre, c, post, hl, hpre, hc, hres⟩
  · rw [hnf] at h; simp at h
  · rw [hres] at h
    have hx : c = x := by simpa using h
    rw [← hx]
    refine ⟨?_, by rw [hl]; simp, hc⟩
    rw [hl, List.append_assoc, List.cons_append]
    exact GetController.loop_first name pre (post ++ more) c hpre hc

/-- C19 (as stated it fails): a controller that is registered a second time is
returned by the lookup of its name, although a controller registered before it
(its own first entry) has that name. -/
theorem C19_registered_twice_is_returned :
    (((NewRouter none).RegisterController usersController).RegisterController
        usersController).GetController usersController.Name = (some usersController, none) ∧
    ∃ b ∈ ((NewRouter none).RegisterController usersController).Controllers,
      b.Name = usersController.Name := by
  decide

/-- C19 (amended): registering a controller `c` keeps the result of every
lookup that succeeded before. After it the lookup of `c.Name` succeeds: it
returns the newly registered `c` when no controller registered before has that
name, and the result of the lookup before (a controller registered before)
otherwise. For a `c` that is not yet registered, it returns `c` exactly when
no controller registered before has the name. -/
theorem C19_registration_keeps_lookups (router : Router) (c : Controller) :
    (∀ (n : String) (x : Controller), router.GetController n = (some x, none) →
      (router.RegisterController c).GetController n = (some x, none)) ∧
    ((router.RegisterController c).GetController c.Name).2 = none ∧
    ((∀ b ∈ router.Controllers, b.Name ≠ c.Name) →
      (router.RegisterController c).GetController c.Name = (some c, none)) ∧
    ((∃ b ∈ router.Controllers, b.Name = c.Name) →
      (router.RegisterController c).GetController c.Name = router.GetController c.Name ∧
      ∃ x ∈ router.Controllers, router.GetController c.Name = (some x, none)) ∧
    (c ∉ router.Controllers →
      ((router.RegisterController c).GetController c.Name = (some c, none) ↔
        ∀ b ∈ router.Controllers, b.Name ≠ c.Name)) := by
  have hframe : ∀ (n : String) (x : Controller), router.GetController n = (some x, none) →
      (router.RegisterController c).GetController n = (some x, none) := fun n x h =>
    (GetController.loop_append n router.Controllers [c] x h).1
  have hnew : (∀ b ∈ router.Controllers, b.Name ≠ c.Name) →
      (router.RegisterController c).GetController c.Name = (some c, none) := fun h =>
    GetController.loop_first c.Name router.Controllers [] c h rfl
  have hold : (∃ b ∈ router.Controllers, b.Name = c.Name) →
      ∃ x ∈ router.Controllers, router.GetController c.Name = (some x, none) := by
    rintro ⟨b, hb, hbn⟩
    rcases GetController.loop_cases c.Name router.Controllers with
      ⟨hall, _⟩ | ⟨pre, x, post, hl, _, _, hres⟩
    · exact absurd hbn (hall b hb)
    · exact ⟨x, by rw [hl]; simp, hres⟩
  refine ⟨hframe, ?_, hnew, ?_, ?_⟩
  · by_cases h : ∃ b ∈ router.Controllers, b.Name = c.Name
    · obtain ⟨x, _, hx⟩ := hold h
      rw [hframe c.Name x hx]
    · rw [hnew (fun b hb hn => h ⟨b, hb, hn⟩)]
  · intro h
    obtain ⟨x, hxm, hx⟩ := hold h
    exact ⟨by rw [hframe c.Name x hx, hx], x, hxm, hx⟩
  · intro hfresh
    constructor
    · intro hres b hb hbn
      obtain ⟨x, hxm, hx⟩ := hold ⟨b, hb, hbn⟩
      rw [hframe c.Name x hx] at hres
      have hxc : x = c := by simpa using hres
      exact hfresh (hxc ▸ hxm)
    · exact hnew

/-- C19 (amended) at a concrete input: a second, different controller named
`users` is registered; the lookup of `users` still returns the first one and
not the new one. -/
theorem C19_registration_keeps_lookups_witness :
    (((NewRouter none).RegisterController usersController).RegisterController
        otherUsersController).GetController "users" = (some usersController, none) ∧
    otherUsersController ∉ ((NewRouter none).RegisterController usersController).Controllers ∧
    (((NewRouter none).RegisterController usersController).RegisterController
        otherUsersController).GetController "users" ≠ (some otherUsersController, none) :=
  ⟨(C19_registration_keeps_lookups ((NewRouter none).RegisterController usersController)
      otherUsersController).1 "users" usersController (by decide),
    by decide,
    fun h =>
      ((C19_registration_keeps_lookups ((NewRouter none).RegisterController usersController)
        otherUsersController).2.2.2.2 (by decide)).1 h usersController (by decide) rfl⟩

/-! ## C20: the index sentinel -/

theorem indexParam_eq_sentinel_iff (comp : String) (h : '/' ∉ comp.toList) :
    indexParam comp = "{/}" ↔ comp = "" := by
  unfold indexParam
  by_cases he : comp = ""
  · simp [he]
  · rw [if_neg he]
    constructor
    · intro hc
      exact absurd (by rw [hc]; decide) h
    · intro hc; exact absurd hc he

/-- C20: every segment returned by `GetParams` is the sentinel `{/}` or a
non-empty string without `/`. The segments are the path components after the
controller name, in order, with the empty ones replaced by the sentinel (or the
single sentinel when there is none), and a component gives the sentinel only
when it is empty. -/
theorem C20_sentinel_unambiguous (pstr : String) :
    (∀ seg ∈ (Router.GetParams pstr).Pattern, seg = "{/}" ∨ (seg ≠ "" ∧ '/' ∉ seg.toList)) ∧
    (((Split pstr '/').drop 2 = [] ∧ (Router.GetParams pstr).Pattern = ["{/}"]) ∨
      (Router.GetParams pstr).Pattern = ((Split pstr '/').drop 2).map indexParam) ∧
    (∀ comp ∈ Split pstr '/', (indexParam comp = "{/}" ↔ comp = "")) := by
  have hcomp : ∀ comp ∈ Split pstr '/', (indexParam comp = "{/}" ↔ comp = "") :=
    fun comp hc => indexParam_eq_sentinel_iff comp (Split_no_sep pstr '/' comp hc)
  have hp : (Router.GetParams pstr).Pattern =
      if (Split pstr '/').drop 2 = [] then ["{/}"]
      else ((Split pstr '/').drop 2).map indexParam :=
    congrArg Params.Pattern (GetParams_eq pstr)
  by_cases hd : (Split pstr '/').drop 2 = []
  · rw [if_pos hd] at hp
    refine ⟨?_, Or.inl ⟨hd, hp⟩, hcomp⟩
    intro seg hseg
    rw [hp] at hseg
    exact Or.inl (List.mem_singleton.mp hseg)
  · rw [if_neg hd] at hp
    refine ⟨?_, Or.inr hp, hcomp⟩
    intro seg hseg
    rw [hp] at hseg
    obtain ⟨comp, hcm, rfl⟩ := List.mem_map.mp hseg
    have hmem : comp ∈ Split pstr '/' := List.mem_of_mem_drop hcm
    by_cases he : comp = ""
    · left; simp [indexParam, he]
    · right
      rw [indexParam_of_ne comp he]
      exact ⟨he, Split_no_sep pstr '/' comp hmem⟩

/-- C20 at a concrete input: the text `{/}` in a path is cut at its slash and
gives no sentinel segment. -/
theorem C20_sentinel_unambiguous_witness :
    (Router.GetParams "/users/{/}").Pattern = ["\x7b", "\x7d"] ∧
    ∀ seg ∈ (Router.GetParams "/users/{/}").Pattern,
      seg = "{/}" ∨ (seg ≠ "" ∧ '/' ∉ seg.toList) :=
  ⟨by decide, (C20_sentinel_unambiguous "/users/{/}").1⟩

end dirtyroute
